import Mathlib

/-!
Verification of the core of `track` (src/track_cli/cli.py): the
filename codec, the log store (sequence allocation, open-log listing,
close transition), the period resolver and the report aggregator.

Modelling conventions (shallow embedding of the Python source):
* Python strings are `List Char`; a file system directory is a list of
  file names (`List (List Char)`), or of `(name, body-lines)` pairs when
  file contents matter.
* Python `re` digit class `\d` is modelled as the ASCII digits matched by
  `Char.isDigit`; the regex wildcard `.` is any character except `'\n'`
  (Python `.` does not match a newline); `$` is modelled as strict end of
  string.  Glob pre-filters (`log_dir.glob(...)`) are subsumed by the
  strict `FILENAME_PATTERN` match that follows them in the source and are
  not modelled separately.
* Python floats are modelled as exact rationals `ℚ`; `datetime` values as
  records of calendar fields with microsecond resolution.
-/

/-- Numeric value of an ASCII digit character (codepoint minus 48). -/
def digitVal (c : Char) : Nat := c.toNat - 48

/-- Decimal digit character for a value below ten, as produced by Python
`str` formatting of an integer. -/
def digitChar10 (n : Nat) : Char :=
  match n with
  | 0 => '0' | 1 => '1' | 2 => '2' | 3 => '3' | 4 => '4'
  | 5 => '5' | 6 => '6' | 7 => '7' | 8 => '8' | _ => '9'

/-- Fuel-driven accumulator loop producing the decimal digits of `n` in
front of `acc` (embeds Python `str(int)` used by the f-string in
`build_filename`). -/
def natDigitsGo : Nat → Nat → List Char → List Char
  | 0, _, acc => acc
  | fuel + 1, n, acc =>
    if n < 10 then digitChar10 n :: acc
    else natDigitsGo fuel (n / 10) (digitChar10 (n % 10) :: acc)

/-- Decimal representation of a natural number, as Python `str` writes it
(no leading zeros; `0` is `"0"`). -/
def natDigits (n : Nat) : List Char := natDigitsGo (n + 1) n []

/-- Value of a decimal digit string (embeds Python `int` applied to a
string of digits, as in `int(m.group(2))`). -/
def digitsToNat (l : List Char) : Nat := l.foldl (fun a c => 10 * a + digitVal c) 0

/-- Character-level sanitization table of `build_filename`
(cli.py lines 161-174): the eleven chained `str.replace` calls, each of
which rewrites a single character to a single character; no replacement
output is itself rewritten by a later replacement, so the chain is a
character map. -/
def sanitizeChar (c : Char) : Char :=
  if c = '/' ∨ c = '\\' ∨ c = '*' ∨ c = '?' ∨ c = ':' ∨ c = '|' then '-'
  else if c = '[' ∨ c = '<' then '('
  else if c = ']' ∨ c = '>' then ')'
  else if c = '"' then '\''
  else c

/-- Trailing strip of spaces and dots (cli.py line 176,
`safe_client.rstrip(" .")`). -/
def rstripSpaceDot (l : List Char) : List Char :=
  (l.reverse.dropWhile (fun c => c = ' ' ∨ c = '.')).reverse

/-- Client sanitization performed by `build_filename` (cli.py lines
161-176): character replacements followed by the trailing strip. -/
def sanitizeClient (client : List Char) : List Char :=
  rstripSpaceDot (client.map sanitizeChar)

/-- Embeds `build_filename` (cli.py lines 159-177): sanitizes the client
and assembles `{yyyymmdd}-{seq}---{safe_client}---{status}.log`. -/
def build_filename (yyyymmdd : List Char) (seq : Nat) (client status : List Char) :
    List Char :=
  yyyymmdd ++ ['-'] ++ natDigits seq ++ ['-', '-', '-'] ++ sanitizeClient client
    ++ ['-', '-', '-'] ++ status ++ ['.', 'l', 'o', 'g']

/-- Literal tail `---open.log` of an open record's file name. -/
def openSuffix : List Char := ['-', '-', '-', 'o', 'p', 'e', 'n', '.', 'l', 'o', 'g']

/-- Literal tail `---closed.log` of a closed record's file name. -/
def closedSuffix : List Char :=
  ['-', '-', '-', 'c', 'l', 'o', 's', 'e', 'd', '.', 'l', 'o', 'g']

/-- Status token `open`. -/
def openTok : List Char := ['o', 'p', 'e', 'n']

/-- Status token `closed`. -/
def closedTok : List Char := ['c', 'l', 'o', 's', 'e', 'd']

/-- Removes a required suffix: `some` of the remaining prefix when `suf`
is the tail of `l`, otherwise `none`. -/
def stripSuff (suf l : List Char) : Option (List Char) :=
  if l.drop (l.length - suf.length) = suf then some (l.take (l.length - suf.length))
  else none

/-- Splits the part of a file name that follows `date-seq---` into the
client field and the status token.  This embeds the end-anchored tail
`(.+?)---(open|closed)\.log$` of `FILENAME_PATTERN` (cli.py line 28): the
end anchor fixes the split, because a string cannot end in both
`---open.log` and `---closed.log`; the non-greedy `.+?` requires the
client to be non-empty and, since `.` does not match a newline, free of
newline characters. -/
def splitClientStatus (t : List Char) : Option (List Char × List Char) :=
  match stripSuff closedSuffix t with
  | some client =>
    if client ≠ [] ∧ ¬ '\n' ∈ client then some (client, closedTok) else none
  | none =>
    match stripSuff openSuffix t with
    | some client =>
      if client ≠ [] ∧ ¬ '\n' ∈ client then some (client, openTok) else none
    | none => none

/-- Embeds a match of `FILENAME_PATTERN` (cli.py line 28),
`^(\d{8})-(\d+)---(.+?)---(open|closed)\.log$`, returning the four groups
`(date, sequence, client, status)` with the sequence already converted by
`int` (total on a `\d+` group).  The greedy `(\d+)` is the maximal digit
run after the date: a shorter run would have to be followed by `---`,
whose first character is not a digit, so backtracking can never produce a
different parse. -/
def decodeFilename (name : List Char) : Option (List Char × Nat × List Char × List Char) :=
  if (name.take 8).length = 8 ∧ (name.take 8).all Char.isDigit
      ∧ (name.drop 8).take 1 = ['-']
      ∧ (name.drop 9).takeWhile Char.isDigit ≠ []
      ∧ ((name.drop 9).dropWhile Char.isDigit).take 3 = ['-', '-', '-'] then
    (splitClientStatus (((name.drop 9).dropWhile Char.isDigit).drop 3)).map
      (fun cs =>
        (name.take 8, digitsToNat ((name.drop 9).takeWhile Char.isDigit), cs.1, cs.2))
  else none

example : decodeFilename ("20240115-1---Acme---open.log").toList =
    some (("20240115").toList, 1, ("Acme").toList, openTok) := by decide

example : decodeFilename ("notes.txt").toList = none := by decide

example : decodeFilename ("20240101-x---Bad---weird.log").toList = none := by decide

example : build_filename ("20240115").toList 1 ("Acme").toList openTok =
    ("20240115-1---Acme---open.log").toList := by decide

example : sanitizeClient ("a/b: c.").toList = ("a-b- c").toList := by decide

/-! ### Decimal representation lemmas -/

theorem digitChar10_isDigit {m : Nat} (h : m < 10) : (digitChar10 m).isDigit := by
  interval_cases m <;> decide

theorem digitVal_digitChar10 {m : Nat} (h : m < 10) : digitVal (digitChar10 m) = m := by
  interval_cases m <;> decide

theorem natDigitsGo_acc (fuel : Nat) :
    ∀ n acc, natDigitsGo fuel n acc = natDigitsGo fuel n [] ++ acc := by
  induction fuel with
  | zero => intro n acc; simp [natDigitsGo]
  | succ f ih =>
    intro n acc
    by_cases h : n < 10
    · simp [natDigitsGo, h]
    · simp only [natDigitsGo, if_neg h]
      rw [ih (n / 10) (digitChar10 (n % 10) :: acc), ih (n / 10) [digitChar10 (n % 10)]]
      simp

theorem natDigitsGo_fuel (f1 : Nat) :
    ∀ f2 n acc, 0 < f1 → 0 < f2 → n < 10 ^ f1 → n < 10 ^ f2 →
      natDigitsGo f1 n acc = natDigitsGo f2 n acc := by
  induction f1 with
  | zero =>
    intro f2 n acc h0 _ _ _
    omega
  | succ g1 ih =>
    intro f2 n acc _ h02 h1 h2
    match f2 with
    | 0 => omega
    | g2 + 1 =>
      by_cases h : n < 10
      · simp [natDigitsGo, h]
      · simp only [natDigitsGo, if_neg h]
        have hg1 : 0 < g1 := by
          rcases Nat.eq_zero_or_pos g1 with hg | hg

          · subst hg; simp at h1; omega
          · exact hg
        have hg2 : 0 < g2 := by
          rcases Nat.eq_zero_or_pos g2 with hg | hg
          · subst hg; simp at h2; omega
          · exact hg
        have hd1 : n / 10 < 10 ^ g1 := by
          rw [Nat.div_lt_iff_lt_mul (by norm_num)]
          calc n < 10 ^ (g1 + 1) := h1
            _ = 10 ^ g1 * 10 := by ring
        have hd2 : n / 10 < 10 ^ g2 := by
          rw [Nat.div_lt_iff_lt_mul (by norm_num)]
          calc n < 10 ^ (g2 + 1) := h2
            _ = 10 ^ g2 * 10 := by ring
        exact ih g2 (n / 10) _ hg1 hg2 hd1 hd2

theorem lt_ten_pow (n : Nat) : n < 10 ^ (n + 1) := by
  calc n < 10 ^ n := Nat.lt_pow_self (by norm_num) n
    _ ≤ 10 ^ (n + 1) := Nat.pow_le_pow_right (by norm_num) (Nat.le_succ n)

theorem natDigits_lt_ten {n : Nat} (h : n < 10) : natDigits n = [digitChar10 n] := by
  simp [natDigits, natDigitsGo, h]

theorem natDigitsGo_succ (f n : Nat) (acc : List Char) :
    natDigitsGo (f + 1) n acc =
      if n < 10 then digitChar10 n :: acc
      else natDigitsGo f (n / 10) (digitChar10 (n % 10) :: acc) := rfl

theorem natDigits_ge_ten {n : Nat} (h : 10 ≤ n) :
    natDigits n = natDigits (n / 10) ++ [digitChar10 (n % 10)] := by
  have hn : ¬ n < 10 := by omega
  rw [natDigits, natDigitsGo_succ, if_neg hn,
    natDigitsGo_acc n (n / 10) [digitChar10 (n % 10)]]
  congr 1
  rw [natDigits]
  apply natDigitsGo_fuel
  · omega
  · omega
  · have : n / 10 ≤ n := Nat.div_le_self n 10
    calc n / 10 ≤ n := this
      _ < 10 ^ n := Nat.lt_pow_self (by norm_num) n
  · exact lt_ten_pow (n / 10)

theorem natDigits_ne_nil (n : Nat) : natDigits n ≠ [] := by
  by_cases h : n < 10
  · rw [natDigits_lt_ten h]; simp
  · rw [natDigits_ge_ten (by omega)]; simp

theorem natDigits_all_digit (n : Nat) : ∀ c ∈ natDigits n, c.isDigit := by
  induction n using Nat.strong_induction_on with
  | _ n ih =>
    by_cases h : n < 10
    · rw [natDigits_lt_ten h]
      intro c hc
      simp at hc
      subst hc
      exact digitChar10_isDigit h
    · rw [natDigits_ge_ten (by omega)]
      intro c hc
      rw [List.mem_append] at hc
      rcases hc with hc | hc
      · exact ih (n / 10) (by omega) c hc
      · simp at hc
        subst hc
        exact digitChar10_isDigit (Nat.mod_lt n (by norm_num))

theorem digitsToNat_natDigits (n : Nat) : digitsToNat (natDigits n) = n := by
  induction n using Nat.strong_induction_on with
  | _ n ih =>
    by_cases h : n < 10
    · rw [natDigits_lt_ten h]
      simp [digitsToNat, digitVal_digitChar10 h]
    · rw [natDigits_ge_ten (by omega)]
      simp only [digitsToNat, List.foldl_append]
      have := ih (n / 10) (by omega)
      simp only [digitsToNat] at this
      rw [this]
      simp only [List.foldl_cons, List.foldl_nil]
      rw [digitVal_digitChar10 (Nat.mod_lt n (by norm_num))]
      omega

/-! ### Suffix-stripping lemmas -/

theorem stripSuff_append (a suf : List Char) : stripSuff suf (a ++ suf) = some a := by
  have hlen : (a ++ suf).length - suf.length = a.length := by
    simp [List.length_append]
  simp [stripSuff, hlen]

theorem stripSuff_closed_of_open (a : List Char) :
    stripSuff closedSuffix (a ++ openSuffix) = none := by
  have hlo : openSuffix.length = 11 := by decide
  have hlc : closedSuffix.length = 13 := by decide
  simp only [stripSuff, hlc]
  rw [if_neg]
  intro hcontra
  by_cases hle : 2 ≤ a.length
  · have hk : (a ++ openSuffix).length - 13 = a.length - 2 := by
      simp only [List.length_append, hlo]; omega
    rw [hk, List.drop_append_of_le_length (by omega)] at hcontra
    have hlen2 : (a.drop (a.length - 2)).length = 2 := by
      simp [List.length_drop]; omega
    have h2 := congrArg (List.drop (a.drop (a.length - 2)).length) hcontra
    rw [List.drop_left] at h2
    rw [hlen2] at h2
    revert h2
    decide
  · have hlen : (a ++ openSuffix).length < 13 := by
      simp [List.length_append, hlo]; omega
    have hk : (a ++ openSuffix).length - 13 = 0 := by omega
    rw [hk, List.drop_zero] at hcontra
    have := congrArg List.length hcontra
    rw [hlc] at this
    omega

theorem splitClientStatus_open (san : List Char) (h1 : san ≠ []) (h2 : '\n' ∉ san) :
    splitClientStatus (san ++ openSuffix) = some (san, openTok) := by
  rw [splitClientStatus, stripSuff_closed_of_open, stripSuff_append]
  simp [h1, h2]

theorem splitClientStatus_closed (san : List Char) (h1 : san ≠ []) (h2 : '\n' ∉ san) :
    splitClientStatus (san ++ closedSuffix) = some (san, closedTok) := by
  rw [splitClientStatus, stripSuff_append]
  simp [h1, h2]

theorem decode_structured (date : List Char) (seq : Nat) (t client status : List Char)
    (hdlen : date.length = 8) (hdall : date.all Char.isDigit)
    (hsplit : splitClientStatus t = some (client, status)) :
    decodeFilename (date ++ '-' :: (natDigits seq ++ ('-' :: '-' :: '-' :: t))) =
      some (date, seq, client, status) := by
  have h1 : (date ++ '-' :: (natDigits seq ++ ('-' :: '-' :: '-' :: t))).take 8 = date := by
    rw [← hdlen]
    exact List.take_left _ _
  have h2 : (date ++ '-' :: (natDigits seq ++ ('-' :: '-' :: '-' :: t))).drop 8 =
      '-' :: (natDigits seq ++ ('-' :: '-' :: '-' :: t)) := by
    rw [← hdlen]
    exact List.drop_left _ _
  have h9 : (date ++ '-' :: (natDigits seq ++ ('-' :: '-' :: '-' :: t))).drop 9 =
      natDigits seq ++ ('-' :: '-' :: '-' :: t) := by
    rw [show (9 : Nat) = 8 + 1 by norm_num, ← List.drop_drop, h2, List.drop_one,
      List.tail_cons]
  have h3 : (natDigits seq ++ ('-' :: '-' :: '-' :: t)).takeWhile Char.isDigit =
      natDigits seq := by
    rw [List.takeWhile_append_of_pos (natDigits_all_digit seq),
      List.takeWhile_cons_of_neg (by decide), List.append_nil]
  have h4 : (natDigits seq ++ ('-' :: '-' :: '-' :: t)).dropWhile Char.isDigit =
      '-' :: '-' :: '-' :: t := by
    rw [List.dropWhile_append_of_pos (natDigits_all_digit seq),
      List.dropWhile_cons_of_neg (by decide)]
  rw [decodeFilename, h1, h2, h9, h3, h4]
  rw [if_pos ⟨hdlen, hdall, rfl, natDigits_ne_nil seq, rfl⟩]
  have h5 : ('-' :: '-' :: '-' :: t).drop 3 = t := rfl
  rw [h5, hsplit, digitsToNat_natDigits]
  rfl

theorem decode_build (date : List Char) (seq : Nat)
    (client status : List Char)
    (hdlen : date.length = 8) (hdall : date.all Char.isDigit)
    (hst : status = openTok ∨ status = closedTok)
    (hc : sanitizeClient client ≠ [])
    (hnl : '\n' ∉ sanitizeClient client) :
    decodeFilename (build_filename date seq client status) =
      some (date, seq, sanitizeClient client, status) := by
  have hshape : build_filename date seq client status =
      date ++ '-' :: (natDigits seq ++ ('-' :: '-' :: '-' ::
        (sanitizeClient client ++ ('-' :: '-' :: '-' ::
          (status ++ ['.', 'l', 'o', 'g']))))) := by
    simp [build_filename]
  rw [hshape]
  rcases hst with hst | hst <;> subst hst
  · have htail : sanitizeClient client ++ ('-' :: '-' :: '-' ::
        (openTok ++ ['.', 'l', 'o', 'g'])) = sanitizeClient client ++ openSuffix := rfl
    rw [htail]
    exact decode_structured date seq _ _ _ hdlen hdall
      (splitClientStatus_open _ hc hnl)
  · have htail : sanitizeClient client ++ ('-' :: '-' :: '-' ::
        (closedTok ++ ['.', 'l', 'o', 'g'])) = sanitizeClient client ++ closedSuffix := rfl
    rw [htail]
    exact decode_structured date seq _ _ _ hdlen hdall
      (splitClientStatus_closed _ hc hnl)

/-- Claim C1 (round-trip of the filename codec): for a valid 8-digit date,
a positive sequence, a status in `{open, closed}` and a client free of
separator collisions — formalised as: the sanitized client is non-empty
and newline-free, so that it survives the non-greedy `(.+?)` group —
decoding the filename built by `build_filename` yields exactly
`(date, sequence, sanitize(client), status)`. -/
theorem claim_C1_filename_roundtrip (date : List Char) (seq : Nat)
    (client status : List Char)
    (hdlen : date.length = 8) (hdall : date.all Char.isDigit)
    (_hpos : 1 ≤ seq)
    (hst : status = openTok ∨ status = closedTok)
    (hc : sanitizeClient client ≠ [])
    (hnl : '\n' ∉ sanitizeClient client) :
    decodeFilename (build_filename date seq client status) =
      some (date, seq, sanitizeClient client, status) :=
  decode_build date seq client status hdlen hdall hst hc hnl

/-- Witness for C1 at a concrete input: client `A/c me.` sanitizes to
`A-c me` and the codec round-trips it. -/
theorem claim_C1_witness :
    decodeFilename (build_filename ("20240115").toList 3 ("A/c me.").toList openTok) =
      some (("20240115").toList, 3, ("A-c me").toList, openTok) := by
  have h := claim_C1_filename_roundtrip ("20240115").toList 3 ("A/c me.").toList openTok
    (by decide) (by decide) (by decide) (Or.inl rfl) (by decide) (by decide)
  rw [h]
  decide

/-! ### Log store: sequence allocation -/

/-- Embeds `next_sequence_for_today` (cli.py lines 143-156): scans the
directory, keeps the largest decoded sequence among well-formed filenames
whose date group equals `yyyymmdd`, and returns that maximum plus one.
The glob pre-filter `{yyyymmdd}-*---*---*.log` is subsumed by the regex
match plus the explicit `m.group(1) == yyyymmdd` comparison; the
`int(m.group(2))` conversion never raises on a `\d+` group, so the
`except ValueError` arm is unreachable. -/
def next_sequence_for_today (files : List (List Char)) (yyyymmdd : List Char) : Nat :=
  (files.foldl (fun maxSeq f =>
    match decodeFilename f with
    | some r => if r.1 = yyyymmdd ∧ maxSeq < r.2.1 then r.2.1 else maxSeq
    | none => maxSeq) 0) + 1

/-- Sequence numbers decoded from the well-formed filenames whose date
field equals `d` (the specification's view of what `next_sequence_for_today`
scans). -/
def seqsFor (files : List (List Char)) (d : List Char) : List Nat :=
  files.filterMap (fun f =>
    match decodeFilename f with
    | some r => if r.1 = d then some r.2.1 else none
    | none => none)

theorem nextseq_foldl_eq_max (d : List Char) (files : List (List Char)) :
    ∀ a : Nat,
      files.foldl (fun maxSeq f =>
        match decodeFilename f with
        | some r => if r.1 = d ∧ maxSeq < r.2.1 then r.2.1 else maxSeq
        | none => maxSeq) a = max a ((seqsFor files d).foldr max 0) := by
  induction files with
  | nil => intro a; simp [seqsFor]
  | cons f fs ih =>
    intro a
    rw [List.foldl_cons]
    match hdec : decodeFilename f with
    | none =>
      simp only [hdec, seqsFor, List.filterMap_cons, hdec]
      exact ih a
    | some r =>
      by_cases hd : r.1 = d
      · simp only [hdec, seqsFor, List.filterMap_cons, hdec, if_pos hd]
        rw [List.foldr_cons]
        have hstep : (if r.1 = d ∧ a < r.2.1 then r.2.1 else a) = max a r.2.1 := by
          by_cases hlt : a < r.2.1
          · rw [if_pos ⟨hd, hlt⟩]; omega
          · rw [if_neg (by tauto)]; omega
        rw [hstep, ih (max a r.2.1)]
        have : seqsFor fs d = fs.filterMap (fun f =>
          match decodeFilename f with
          | some r => if r.1 = d then some r.2.1 else none
          | none => none) := rfl
        rw [← this]
        omega
      · have hcond : ∀ b : Nat, (if r.1 = d ∧ b < r.2.1 then r.2.1 else b) = b := by
          intro b; rw [if_neg (by tauto)]
        simp only [hdec, hcond, seqsFor, List.filterMap_cons, hdec, if_neg hd]
        exact ih a

/-- Claim C2 (`nextSequence` correctness): `next_sequence_for_today` is one
plus the maximum sequence decoded from well-formed filenames dated `d`
(`1` when there are none, since the fold over an empty collection is `0`),
and a filename that does not match the structural pattern contributes
nothing. -/
theorem claim_C2_next_sequence (files : List (List Char)) (d : List Char) :
    next_sequence_for_today files d = (seqsFor files d).foldr max 0 + 1
    ∧ (seqsFor files d = [] → next_sequence_for_today files d = 1)
    ∧ (∀ n, decodeFilename n = none →
        next_sequence_for_today (n :: files) d = next_sequence_for_today files d) := by
  refine ⟨?_, ?_, ?_⟩
  · rw [next_sequence_for_today, nextseq_foldl_eq_max d files 0]
    omega
  · intro hnil
    rw [next_sequence_for_today, nextseq_foldl_eq_max d files 0, hnil]
    rfl
  · intro n hn
    rw [next_sequence_for_today, List.foldl_cons, hn]
    rfl

/-- Witness for C2 on a concrete directory: two records for the date, one
foreign file, one record for another date. -/
theorem claim_C2_witness :
    next_sequence_for_today
      [("20240101-2---A---open.log").toList, ("notes.txt").toList,
       ("20240101-7---B---closed.log").toList, ("20240202-9---A---open.log").toList]
      ("20240101").toList = 8
    ∧ next_sequence_for_today
        (("junk.log").toList :: [("20240101-2---A---open.log").toList])
        ("20240101").toList =
      next_sequence_for_today [("20240101-2---A---open.log").toList]
        ("20240101").toList := by
  constructor
  · have h := (claim_C2_next_sequence
      [("20240101-2---A---open.log").toList, ("notes.txt").toList,
       ("20240101-7---B---closed.log").toList, ("20240202-9---A---open.log").toList]
      ("20240101").toList).1
    rw [h]
    decide
  · exact (claim_C2_next_sequence [("20240101-2---A---open.log").toList]
      ("20240101").toList).2.2 ("junk.log").toList (by decide)

/-! ### Log store: record creation -/

/-- Writing a file into the directory (`path.write_text`, cli.py line
386): creates the name, or silently overwrites an existing file of the
same name, so the set of names gains at most one element. -/
def writeFile (files : List (List Char)) (name : List Char) : List (List Char) :=
  if name ∈ files then files else name :: files

/-- Embeds the record-creation core of `start` (cli.py lines 376-386):
computes today's next sequence, builds the `open` filename and writes it;
returns the allocated sequence together with the new directory state. -/
def startOp (files : List (List Char)) (yyyymmdd client : List Char) :
    Nat × List (List Char) :=
  (next_sequence_for_today files yyyymmdd,
    writeFile files
      (build_filename yyyymmdd (next_sequence_for_today files yyyymmdd) client openTok))

/-- Sequence numbers allocated by successive `start` operations run on day
`yyyymmdd` for the given list of clients. -/
def allocRun (files : List (List Char)) (yyyymmdd : List Char) :
    List (List Char) → List Nat
  | [] => []
  | c :: cs =>
    (startOp files yyyymmdd c).1 ::
      allocRun (startOp files yyyymmdd c).2 yyyymmdd cs

theorem mem_le_foldr_max (x : Nat) (l : List Nat) (h : x ∈ l) :
    x ≤ l.foldr max 0 := by
  induction l with
  | nil => cases h
  | cons y ys ih =>
    rw [List.foldr_cons]
    rcases List.mem_cons.mp h with h | h
    · omega
    · have := ih h
      omega

theorem mem_seqsFor (files : List (List Char)) (d n : List Char) (s : Nat)
    (c st : List Char) (hmem : n ∈ files)
    (hdec : decodeFilename n = some (d, s, c, st)) : s ∈ seqsFor files d := by
  rw [seqsFor, List.mem_filterMap]
  exact ⟨n, hmem, by rw [hdec]; simp⟩

theorem allocRun_spec (d : List Char) (hdlen : d.length = 8)
    (hdall : d.all Char.isDigit) :
    ∀ (clients : List (List Char)) (files : List (List Char)) (m : Nat),
      (∀ c ∈ clients, sanitizeClient c ≠ [] ∧ '\n' ∉ sanitizeClient c) →
      (seqsFor files d).foldr max 0 = m →
      allocRun files d clients = List.range' (m + 1) clients.length := by
  intro clients
  induction clients with
  | nil => intro files m _ _; rfl
  | cons c cs ih =>
    intro files m hgood hmax
    have hnext : next_sequence_for_today files d = m + 1 := by
      rw [next_sequence_for_today, nextseq_foldl_eq_max d files 0, hmax]
      omega
    have hcgood := hgood c (List.mem_cons_self c cs)
    have hdec : decodeFilename (build_filename d (m + 1) c openTok) =
        some (d, m + 1, sanitizeClient c, openTok) :=
      decode_build d (m + 1) c openTok hdlen hdall (Or.inl rfl) hcgood.1 hcgood.2
    have hnotmem : build_filename d (m + 1) c openTok ∉ files := by
      intro hmem
      have hs := mem_seqsFor files d _ (m + 1) _ _ hmem hdec
      have := mem_le_foldr_max _ _ hs
      omega
    have hstate : (startOp files d c).2 =
        build_filename d (m + 1) c openTok :: files := by
      rw [startOp, writeFile, hnext, if_neg hnotmem]
    have hseqs : seqsFor (build_filename d (m + 1) c openTok :: files) d =
        (m + 1) :: seqsFor files d := by
      rw [seqsFor, List.filterMap_cons, hdec]
      simp [seqsFor]
    have hmax2 : (seqsFor (build_filename d (m + 1) c openTok :: files) d).foldr max 0 =
        m + 1 := by
      rw [hseqs, List.foldr_cons, hmax]
      omega
    rw [allocRun]
    rw [hstate]
    rw [ih _ (m + 1) (fun x hx => hgood x (List.mem_cons_of_mem c hx)) hmax2]
    have hfst : (startOp files d c).1 = m + 1 := hnext
    rw [hfst, List.length_cons, List.range'_succ]

/-- Claim C3 counterexample: a client name `"."` sanitizes to the empty
string, so the file written by `start` never matches `FILENAME_PATTERN`;
two successful creates on the same (initially empty) day then both
allocate sequence 1 — a repeat, not `{1, 2}`. -/
theorem claim_C3_counterexample :
    allocRun [] ("20240101").toList [(".").toList, (".").toList] = [1, 1]
    ∧ ¬ (allocRun [] ("20240101").toList [(".").toList, (".").toList]).Nodup := by
  constructor
  · decide
  · decide

/-- Claim C3 as amended: for every date `D` (8 digits) and directory with
no decodable records for `D`, after `N` successful sequential `start`
operations on day `D` whose clients all sanitize to a non-empty
newline-free name, the allocated sequence numbers are exactly
`1, 2, ..., N` in order — no gaps, no repeats.  (The unamended claim fails
for clients whose sanitized name is empty, see the counterexample.) -/
theorem claim_C3_sequence_monotonic (d : List Char) (files : List (List Char))
    (clients : List (List Char))
    (hdlen : d.length = 8) (hdall : d.all Char.isDigit)
    (hempty : seqsFor files d = [])
    (hgood : ∀ c ∈ clients, sanitizeClient c ≠ [] ∧ '\n' ∉ sanitizeClient c) :
    allocRun files d clients = List.range' 1 clients.length :=
  allocRun_spec d hdlen hdall clients files 0 hgood (by rw [hempty]; rfl)

/-- Witness for C3: three creates on an empty directory allocate 1, 2, 3. -/
theorem claim_C3_witness :
    allocRun [] ("20240115").toList
      [("Acme").toList, ("B/x").toList, ("Acme").toList] = [1, 2, 3] := by
  have h := claim_C3_sequence_monotonic ("20240115").toList []
    [("Acme").toList, ("B/x").toList, ("Acme").toList]
    (by decide) (by decide) (by decide) (by decide)
  rw [h]
  decide

/-! ### Calendar model (Python `datetime.date` / `datetime.datetime`) -/

/-- Calendar date, embedding Python `datetime.date` (proleptic Gregorian,
year at least 1 for every value produced by the modelled code). -/
structure PyDate where
  year : Nat
  month : Nat
  day : Nat
deriving DecidableEq

/-- Timestamp with microsecond resolution, embedding Python
`datetime.datetime`. -/
structure PyDateTime where
  date : PyDate
  hour : Nat
  minute : Nat
  second : Nat
  micro : Nat
deriving DecidableEq

def isLeapYear (y : Nat) : Bool := (y % 4 = 0 ∧ y % 100 ≠ 0) ∨ y % 400 = 0

def daysInMonth (y m : Nat) : Nat :=
  if m = 2 then (if isLeapYear y then 29 else 28)
  else if m = 4 ∨ m = 6 ∨ m = 9 ∨ m = 11 then 30
  else 31

def daysBeforeMonth (y m : Nat) : Nat :=
  (List.range (m - 1)).foldl (fun a i => a + daysInMonth y (i + 1)) 0

/-- Proleptic-Gregorian ordinal of a date, as Python `date.toordinal`
(`0001-01-01` is day 1). -/
def toOrdinal (d : PyDate) : Nat :=
  365 * (d.year - 1) + (d.year - 1) / 4 - (d.year - 1) / 100 + (d.year - 1) / 400
    + daysBeforeMonth d.year d.month + d.day

/-- Day of week with Monday = 0, as Python `date.weekday`. -/
def pyWeekday (d : PyDate) : Nat := (toOrdinal d + 6) % 7

/-- The previous calendar day (embeds `d - timedelta(days=1)`). -/
def predDate (d : PyDate) : PyDate :=
  if 2 ≤ d.day then ⟨d.year, d.month, d.day - 1⟩
  else if 2 ≤ d.month then ⟨d.year, d.month - 1, daysInMonth d.year (d.month - 1)⟩
  else ⟨d.year - 1, 12, 31⟩

/-- The next calendar day (embeds `d + timedelta(days=1)`). -/
def succDate (d : PyDate) : PyDate :=
  if d.day < daysInMonth d.year d.month then ⟨d.year, d.month, d.day + 1⟩
  else if d.month < 12 then ⟨d.year, d.month + 1, 1⟩
  else ⟨d.year + 1, 1, 1⟩

def subDays (d : PyDate) : Nat → PyDate
  | 0 => d
  | n + 1 => subDays (predDate d) n

def addDays (d : PyDate) : Nat → PyDate
  | 0 => d
  | n + 1 => addDays (succDate d) n

/-- Embeds `datetime.combine(d, datetime.min.time())`: local midnight. -/
def atMidnight (d : PyDate) : PyDateTime := ⟨d, 0, 0, 0, 0⟩

/-- Embeds `datetime.combine(d, datetime.max.time())`: the last
representable instant of the day, `23:59:59.999999`. -/
def atDayEnd (d : PyDate) : PyDateTime := ⟨d, 23, 59, 59, 999999⟩

/-- Microsecond count of a timestamp since the epoch of the ordinal count;
Python's field-wise datetime comparison agrees with comparison of these
counts on valid datetimes. -/
def dtMicros (t : PyDateTime) : Nat :=
  (((toOrdinal t.date * 24 + t.hour) * 60 + t.minute) * 60 + t.second) * 1000000
    + t.micro

/-! ### Period resolver (`parse_period`, cli.py lines 232-302) -/

/-- Python whitespace stripped by `str.strip` (ASCII subset). -/
def pyWs (c : Char) : Bool :=
  c = ' ' ∨ c = '\t' ∨ c = '\n' ∨ c = '\x0d' ∨ c = '\x0b' ∨ c = '\x0c'

def pyStrip (l : List Char) : List Char :=
  ((l.dropWhile pyWs).reverse.dropWhile pyWs).reverse

/-- Embeds `period_description.strip().lower()` (ASCII lowering). -/
def normalizePhrase (l : List Char) : List Char := (pyStrip l).map Char.toLower

/-- Embeds `pd.split(" ", 1)[1]`: everything after the first space. -/
def afterFirstSpace (l : List Char) : List Char :=
  (l.dropWhile (fun c => ¬ c = ' ')).drop 1

/-- Embeds `week_range` (cli.py lines 236-239): Monday through Sunday of
the week containing `d`. -/
def week_range (d : PyDate) : PyDate × PyDate :=
  (subDays d (pyWeekday d), addDays (subDays d (pyWeekday d)) 6)

/-- Embeds `month_range` (cli.py lines 241-248). -/
def month_range (d : PyDate) : PyDate × PyDate :=
  (⟨d.year, d.month, 1⟩,
    predDate (if d.month = 12 then ⟨d.year + 1, 1, 1⟩ else ⟨d.year, d.month + 1, 1⟩))

/-- Embeds `quarter_range` (cli.py lines 250-259). -/
def quarter_range (d : PyDate) : PyDate × PyDate :=
  (⟨d.year, ((d.month - 1) / 3) * 3 + 1, 1⟩,
    predDate (if 12 < ((d.month - 1) / 3) * 3 + 1 + 3 then ⟨d.year + 1, 1, 1⟩
      else ⟨d.year, ((d.month - 1) / 3) * 3 + 1 + 3, 1⟩))

/-- Embeds `year_range` (cli.py lines 261-264). -/
def year_range (d : PyDate) : PyDate × PyDate := (⟨d.year, 1, 1⟩, ⟨d.year, 12, 31⟩)

/-- Message of `ValueError("Unknown period. Use: week, month, quarter, year")`. -/
def periodErrUnit : List Char := ("Unknown period. Use: week, month, quarter, year").toList

/-- Message of `ValueError("Use 'this <period>' or 'last <period>'")`. -/
def periodErrUsage : List Char := ("Use 'this <period>' or 'last <period>'").toList

/-- Embeds `parse_period` (cli.py lines 232-302).  `today` stands for the
ambient `date.today()`; a raised `ValueError` is `Except.error` carrying
its message.  The final `datetime.combine` calls produce midnight of the
first day and `23:59:59.999999` of the last day. -/
def parse_period (today : PyDate) (period_description : List Char) :
    Except (List Char) (PyDateTime × PyDateTime) :=
  if normalizePhrase period_description = ['t', 'o', 'd', 'a', 'y'] then
    Except.ok (atMidnight today, atDayEnd today)
  else if (normalizePhrase period_description).take 5 = ['t', 'h', 'i', 's', ' '] then
    if afterFirstSpace (normalizePhrase period_description) = ['w', 'e', 'e', 'k'] then
      Except.ok (atMidnight (week_range today).1, atDayEnd (week_range today).2)
    else if afterFirstSpace (normalizePhrase period_description) =
        ['m', 'o', 'n', 't', 'h'] then
      Except.ok (atMidnight (month_range today).1, atDayEnd (month_range today).2)
    else if afterFirstSpace (normalizePhrase period_description) =
        ['q', 'u', 'a', 'r', 't', 'e', 'r'] then
      Except.ok (atMidnight (quarter_range today).1, atDayEnd (quarter_range today).2)
    else if afterFirstSpace (normalizePhrase period_description) =
        ['y', 'e', 'a', 'r'] then
      Except.ok (atMidnight (year_range today).1, atDayEnd (year_range today).2)
    else Except.error periodErrUnit
  else if (normalizePhrase period_description).take 5 = ['l', 'a', 's', 't', ' '] then
    if afterFirstSpace (normalizePhrase period_description) = ['w', 'e', 'e', 'k'] then
      Except.ok (atMidnight (week_range (subDays today 7)).1,
        atDayEnd (week_range (subDays today 7)).2)
    else if afterFirstSpace (normalizePhrase period_description) =
        ['m', 'o', 'n', 't', 'h'] then
      Except.ok
        (atMidnight (month_range (predDate ⟨today.year, today.month, 1⟩)).1,
          atDayEnd (month_range (predDate ⟨today.year, today.month, 1⟩)).2)
    else if afterFirstSpace (normalizePhrase period_description) =
        ['q', 'u', 'a', 'r', 't', 'e', 'r'] then
      Except.ok
        (atMidnight (quarter_range
            (predDate ⟨today.year, ((today.month - 1) / 3) * 3 + 1, 1⟩)).1,
          atDayEnd (quarter_range
            (predDate ⟨today.year, ((today.month - 1) / 3) * 3 + 1, 1⟩)).2)
    else if afterFirstSpace (normalizePhrase period_description) =
        ['y', 'e', 'a', 'r'] then
      Except.ok (atMidnight ⟨today.year - 1, 1, 1⟩, atDayEnd ⟨today.year - 1, 12, 31⟩)
    else Except.error periodErrUnit
  else Except.error periodErrUsage

instance {ε α : Type} [DecidableEq ε] [DecidableEq α] : DecidableEq (Except ε α) :=
  fun a b =>
  match a, b with
  | .error e, .error f => decidable_of_iff (e = f) (by simp)
  | .error _, .ok _ => isFalse (fun hc => Except.noConfusion hc)
  | .ok _, .error _ => isFalse (fun hc => Except.noConfusion hc)
  | .ok x, .ok y => decidable_of_iff (x = y) (by simp)

/-- Claim C4 (period boundary inclusivity): with reference day 2024-02-15,
`parse_period "this month"` is the inclusive range from 2024-02-01
00:00:00 to the last representable instant of 2024-02-29 (leap-year
February); with reference day 2024-05-10, `parse_period "last quarter"`
is Q1, 2024-01-01 00:00:00 through the last instant of 2024-03-31. -/
theorem claim_C4_period_boundaries :
    parse_period ⟨2024, 2, 15⟩ ("this month").toList =
      Except.ok (atMidnight ⟨2024, 2, 1⟩, atDayEnd ⟨2024, 2, 29⟩)
    ∧ parse_period ⟨2024, 5, 10⟩ ("last quarter").toList =
      Except.ok (atMidnight ⟨2024, 1, 1⟩, atDayEnd ⟨2024, 3, 31⟩) := by
  constructor
  · decide
  · decide

/-- Phrases recognized by the period resolver. -/
def recognizedPhrases : List (List Char) :=
  [("today").toList, ("this week").toList, ("this month").toList,
   ("this quarter").toList, ("this year").toList, ("last week").toList,
   ("last month").toList, ("last quarter").toList, ("last year").toList]

theorem afterFirstSpace_take5 (l : List Char) (c1 c2 c3 c4 : Char)
    (h1 : ¬ c1 = ' ') (h2 : ¬ c2 = ' ') (h3 : ¬ c3 = ' ') (h4 : ¬ c4 = ' ')
    (h : l.take 5 = [c1, c2, c3, c4, ' ']) :
    afterFirstSpace l = l.drop 5 := by
  have hl : l = [c1, c2, c3, c4, ' '] ++ l.drop 5 := by
    conv_lhs => rw [← List.take_append_drop 5 l]
    rw [h]
  conv_lhs => rw [hl]
  rw [afterFirstSpace]
  simp [List.dropWhile_cons, h1, h2, h3, h4]

/-- Claim C9 (`InvalidPeriod` on unrecognized input): whenever the trimmed,
lowercased phrase is none of `today`, `this/last week|month|quarter|year`,
`parse_period` raises a `ValueError` — never returns a range — and the
message is one of the two vocabulary messages (`Unknown period. Use:
week, month, quarter, year` for a bad unit, `Use 'this <period>' or 'last
<period>'` for a bad form). -/
theorem claim_C9_invalid_period (today : PyDate) (phrase : List Char)
    (h : normalizePhrase phrase ∉ recognizedPhrases) :
    parse_period today phrase = Except.error periodErrUnit
    ∨ parse_period today phrase = Except.error periodErrUsage := by
  rw [parse_period]
  split_ifs with h1 h2 h3 h4 h5 h6 h7 h8 h9 h10 h11
  · exact absurd (by rw [h1]; decide) h
  · have hd := afterFirstSpace_take5 _ _ _ _ _ (by decide) (by decide) (by decide)
      (by decide) h2
    have hfull : normalizePhrase phrase =
        ['t', 'h', 'i', 's', ' '] ++ (normalizePhrase phrase).drop 5 := by
      conv_lhs => rw [← List.take_append_drop 5 (normalizePhrase phrase)]
      rw [h2]
    rw [hd] at h3
    exact absurd (by rw [hfull, h3]; decide) h
  · have hd := afterFirstSpace_take5 _ _ _ _ _ (by decide) (by decide) (by decide)
      (by decide) h2
    have hfull : normalizePhrase phrase =
        ['t', 'h', 'i', 's', ' '] ++ (normalizePhrase phrase).drop 5 := by
      conv_lhs => rw [← List.take_append_drop 5 (normalizePhrase phrase)]
      rw [h2]
    rw [hd] at h4
    exact absurd (by rw [hfull, h4]; decide) h
  · have hd := afterFirstSpace_take5 _ _ _ _ _ (by decide) (by decide) (by decide)
      (by decide) h2
    have hfull : normalizePhrase phrase =
        ['t', 'h', 'i', 's', ' '] ++ (normalizePhrase phrase).drop 5 := by
      conv_lhs => rw [← List.take_append_drop 5 (normalizePhrase phrase)]
      rw [h2]
    rw [hd] at h5
    exact absurd (by rw [hfull, h5]; decide) h
  · have hd := afterFirstSpace_take5 _ _ _ _ _ (by decide) (by decide) (by decide)
      (by decide) h2
    have hfull : normalizePhrase phrase =
        ['t', 'h', 'i', 's', ' '] ++ (normalizePhrase phrase).drop 5 := by
      conv_lhs => rw [← List.take_append_drop 5 (normalizePhrase phrase)]
      rw [h2]
    rw [hd] at h6
    exact absurd (by rw [hfull, h6]; decide) h
  · exact Or.inl rfl
  · have hd := afterFirstSpace_take5 _ _ _ _ _ (by decide) (by decide) (by decide)
      (by decide) h7
    have hfull : normalizePhrase phrase =
        ['l', 'a', 's', 't', ' '] ++ (normalizePhrase phrase).drop 5 := by
      conv_lhs => rw [← List.take_append_drop 5 (normalizePhrase phrase)]
      rw [h7]
    rw [hd] at h8
    exact absurd (by rw [hfull, h8]; decide) h
  · have hd := afterFirstSpace_take5 _ _ _ _ _ (by decide) (by decide) (by decide)
      (by decide) h7
    have hfull : normalizePhrase phrase =
        ['l', 'a', 's', 't', ' '] ++ (normalizePhrase phrase).drop 5 := by
      conv_lhs => rw [← List.take_append_drop 5 (normalizePhrase phrase)]
      rw [h7]
    rw [hd] at h9
    exact absurd (by rw [hfull, h9]; decide) h
  · have hd := afterFirstSpace_take5 _ _ _ _ _ (by decide) (by decide) (by decide)
      (by decide) h7
    have hfull : normalizePhrase phrase =
        ['l', 'a', 's', 't', ' '] ++ (normalizePhrase phrase).drop 5 := by
      conv_lhs => rw [← List.take_append_drop 5 (normalizePhrase phrase)]
      rw [h7]
    rw [hd] at h10
    exact absurd (by rw [hfull, h10]; decide) h
  · have hd := afterFirstSpace_take5 _ _ _ _ _ (by decide) (by decide) (by decide)
      (by decide) h7
    have hfull : normalizePhrase phrase =
        ['l', 'a', 's', 't', ' '] ++ (normalizePhrase phrase).drop 5 := by
      conv_lhs => rw [← List.take_append_drop 5 (normalizePhrase phrase)]
      rw [h7]
    rw [hd] at h11
    exact absurd (by rw [hfull, h11]; decide) h
  · exact Or.inl rfl
  · exact Or.inr rfl

/-- Witness for C9: the phrase `Fortnight` (not in the vocabulary) makes
`parse_period` fail. -/
theorem claim_C9_witness :
    normalizePhrase ("Fortnight").toList ∉ recognizedPhrases
    ∧ (parse_period ⟨2024, 1, 1⟩ ("Fortnight").toList = Except.error periodErrUnit
      ∨ parse_period ⟨2024, 1, 1⟩ ("Fortnight").toList = Except.error periodErrUsage) :=
  ⟨by decide, claim_C9_invalid_period ⟨2024, 1, 1⟩ ("Fortnight").toList (by decide)⟩

/-! ### Record body parser and timestamp parsing -/

/-- Key `Task`. -/
def keyTask : List Char := ("Task").toList

/-- Key `Start time`. -/
def keyStartTime : List Char := ("Start time").toList

/-- Key `End time`. -/
def keyEndTime : List Char := ("End time").toList

/-- One line of `parse_log_file` (cli.py lines 186-189): a line containing
a colon contributes the pair (trimmed text before the first colon, trimmed
text after it); other lines are ignored. -/
def lineKV (line : List Char) : Option (List Char × List Char) :=
  if ':' ∈ line then
    some (pyStrip (line.takeWhile (fun c => ¬ c = ':')),
      pyStrip ((line.dropWhile (fun c => ¬ c = ':')).drop 1))
  else none

/-- Embeds `parse_log_file(path).get(key)`: dictionary assignment in line
order means the last line with the key wins. -/
def metaGet (lines : List (List Char)) (key : List Char) : Option (List Char) :=
  lines.foldl (fun acc line =>
    match lineKV line with
    | some kv => if kv.1 = key then some kv.2 else acc
    | none => acc) none

/-- Embeds `datetime.strptime(s, "%Y-%m-%d %H:%M:%S")` on the zero-padded
form this program writes (`now_local_iso`, cli.py line 136), including the
range validation the `datetime` constructor performs; an out-of-range
field raises, modelled as `none`.  (Python also accepts non-padded digit
counts; only the padded form matters here, since the program itself writes
padded timestamps.) -/
def parseDateTime (s : List Char) : Option PyDateTime :=
  match s with
  | [y1, y2, y3, y4, p1, m1, m2, p2, d1, d2, p3, h1, h2, p4, n1, n2, p5, s1, s2] =>
    if p1 = '-' ∧ p2 = '-' ∧ p3 = ' ' ∧ p4 = ':' ∧ p5 = ':'
        ∧ ([y1, y2, y3, y4, m1, m2, d1, d2, h1, h2, n1, n2, s1, s2]).all Char.isDigit
        ∧ 1 ≤ digitsToNat [y1, y2, y3, y4]
        ∧ 1 ≤ digitsToNat [m1, m2] ∧ digitsToNat [m1, m2] ≤ 12
        ∧ 1 ≤ digitsToNat [d1, d2]
        ∧ digitsToNat [d1, d2] ≤
            daysInMonth (digitsToNat [y1, y2, y3, y4]) (digitsToNat [m1, m2])
        ∧ digitsToNat [h1, h2] ≤ 23 ∧ digitsToNat [n1, n2] ≤ 59
        ∧ digitsToNat [s1, s2] ≤ 59 then
      some ⟨⟨digitsToNat [y1, y2, y3, y4], digitsToNat [m1, m2], digitsToNat [d1, d2]⟩,
        digitsToNat [h1, h2], digitsToNat [n1, n2], digitsToNat [s1, s2], 0⟩
    else none
  | _ => none

/-- Embeds `datetime.strptime(file_date, "%Y%m%d")` (the report fallback,
cli.py line 505): eight digits, validated as a real calendar date. -/
def parseDate8 (s : List Char) : Option PyDate :=
  match s with
  | [y1, y2, y3, y4, m1, m2, d1, d2] =>
    if ([y1, y2, y3, y4, m1, m2, d1, d2]).all Char.isDigit
        ∧ 1 ≤ digitsToNat [y1, y2, y3, y4]
        ∧ 1 ≤ digitsToNat [m1, m2] ∧ digitsToNat [m1, m2] ≤ 12
        ∧ 1 ≤ digitsToNat [d1, d2]
        ∧ digitsToNat [d1, d2] ≤
            daysInMonth (digitsToNat [y1, y2, y3, y4]) (digitsToNat [m1, m2]) then
      some ⟨digitsToNat [y1, y2, y3, y4], digitsToNat [m1, m2], digitsToNat [d1, d2]⟩
    else none
  | _ => none

/-- Embeds `duration_hours` (cli.py lines 197-205): parse both timestamps
(any failure gives 0.0), take the signed difference in hours, clamp at
zero with `max(0.0, hours)`.  Floats are modelled as exact rationals; the
clamp `max 0 hours` is written as a comparison of the underlying
microsecond counts (`hours ≤ 0` iff `end ≤ start`, as division by the
positive constants 1000000 and 3600 preserves sign). -/
def duration_hours (start finish : List Char) : ℚ :=
  match parseDateTime start, parseDateTime finish with
  | some sdt, some edt =>
    if dtMicros edt ≤ dtMicros sdt then 0
    else (((dtMicros edt : ℚ) - (dtMicros sdt : ℚ)) / 1000000) / 3600
  | _, _ => 0

theorem duration_hours_nonneg (start finish : List Char) :
    0 ≤ duration_hours start finish := by
  rw [duration_hours]
  cases hs : parseDateTime start with
  | none => exact le_refl 0
  | some sdt =>
    cases he : parseDateTime finish with
    | none => exact le_refl 0
    | some edt =>
      show 0 ≤ if dtMicros edt ≤ dtMicros sdt then (0 : ℚ)
        else (((dtMicros edt : ℚ) - (dtMicros sdt : ℚ)) / 1000000) / 3600
      by_cases h : dtMicros edt ≤ dtMicros sdt
      · rw [if_pos h]
      · rw [if_neg h]
        have hlt : (dtMicros sdt : ℚ) ≤ (dtMicros edt : ℚ) := by
          exact_mod_cast Nat.le_of_lt (Nat.lt_of_not_le h)
        have h1 : (0 : ℚ) ≤ (dtMicros edt : ℚ) - (dtMicros sdt : ℚ) := by linarith
        positivity

example : duration_hours ("2024-01-01 10:00:00").toList ("2024-01-01 09:00:00").toList
    = 0 := by decide

/-- Claim C7 (duration clamp): `duration_hours` is never negative, and
when both timestamps parse with the start strictly after the end it
returns exactly 0, so such a record contributes 0.0 hours.  (Python
datetime comparison on valid datetimes agrees with comparison of
`dtMicros`.) -/
theorem claim_C7_duration_clamp :
    (∀ s e, 0 ≤ duration_hours s e)
    ∧ (∀ s e sdt edt, parseDateTime s = some sdt → parseDateTime e = some edt →
        dtMicros edt < dtMicros sdt → duration_hours s e = 0) := by
  constructor
  · exact duration_hours_nonneg
  · intro s e sdt edt hs he hlt
    rw [duration_hours, hs, he]
    show (if dtMicros edt ≤ dtMicros sdt then (0 : ℚ)
      else (((dtMicros edt : ℚ) - (dtMicros sdt : ℚ)) / 1000000) / 3600) = 0
    rw [if_pos (Nat.le_of_lt hlt)]

/-- Witness for C7: an unparseable pair is nonnegative (indeed 0), and a
start one hour after the end clamps to exactly 0. -/
theorem claim_C7_witness :
    0 ≤ duration_hours ("a").toList ("b").toList
    ∧ duration_hours ("2024-01-01 10:00:00").toList
        ("2024-01-01 09:00:00").toList = 0 := by
  refine ⟨claim_C7_duration_clamp.1 _ _, ?_⟩
  exact claim_C7_duration_clamp.2 _ _
    ⟨⟨2024, 1, 1⟩, 10, 0, 0, 0⟩ ⟨⟨2024, 1, 1⟩, 9, 0, 0, 0⟩
    (by decide) (by decide) (by decide)

/-! ### Report aggregation (cli.py lines 482-512) -/

/-- Directory entry: file name together with its body lines. -/
abbrev FileEntry := List Char × List (List Char)

/-- Embeds one iteration of the aggregation loop of `report` (cli.py lines
485-512) on a single file: `none` when the loop `continue`s without
counting the record, otherwise the `(task, hours)` pair it adds.  The
record is skipped unless the filename decodes with the queried client and
`closed` status; `Start time`/`End time` must be present and non-empty
(Python truthiness of `meta.get`); an unparseable `Start time` falls back
to the filename date at midnight, and if that also fails to parse the
record is skipped; the period check compares only the (parsed or
fallback) start timestamp against the resolved range. -/
def recordContribution (c : List Char) (startDT endDT : PyDateTime)
    (entry : FileEntry) : Option (List Char × ℚ) :=
  match decodeFilename entry.1 with
  | none => none
  | some r =>
    if r.2.2.1 = c ∧ r.2.2.2 = closedTok then
      match metaGet entry.2 keyStartTime, metaGet entry.2 keyEndTime with
      | some startS, some endS =>
        if startS ≠ [] ∧ endS ≠ [] then
          match (match parseDateTime startS with
            | some ts => some ts
            | none => (parseDate8 r.1).map atMidnight) with
          | some startTs =>
            if dtMicros startDT ≤ dtMicros startTs
                ∧ dtMicros startTs ≤ dtMicros endDT then
              some ((metaGet entry.2 keyTask).getD ("Unknown").toList,
                duration_hours startS endS)
            else none
          | none => none
        else none
      | _, _ => none
    else none

/-- Dictionary update `task_to_hours[task] = task_to_hours.get(task, 0.0)
+ hours` on an insertion-ordered association list. -/
def addHours : List (List Char × ℚ) → List Char → ℚ → List (List Char × ℚ)
  | [], t, h => [(t, h)]
  | (t0, h0) :: rest, t, h =>
    if t0 = t then (t0, h0 + h) :: rest else (t0, h0) :: addHours rest t h

/-- Embeds the aggregation of `report`: folds every file's contribution
into the per-task map and the running total. -/
def reportAgg (c : List Char) (startDT endDT : PyDateTime)
    (files : List FileEntry) : List (List Char × ℚ) × ℚ :=
  files.foldl (fun acc entry =>
    match recordContribution c startDT endDT entry with
    | some th => (addHours acc.1 th.1 th.2, acc.2 + th.2)
    | none => acc) ([], 0)

/-- Claim C6 counterexample: the claim promises that a closed record of
the queried client whose `Start time` fails to parse is *not* dropped but
included via the filename date at midnight.  For the filename date
`20240230` — which matches the structural pattern (8 digits) but is not a
valid calendar date — the fallback `strptime(file_date, "%Y%m%d")` also
raises and the record *is* dropped: it contributes nothing even though
the queried range covers all of 2024. -/
theorem claim_C6_counterexample :
    recordContribution ("Acme").toList (atMidnight ⟨2024, 1, 1⟩)
      (atDayEnd ⟨2024, 12, 31⟩)
      (("20240230-1---Acme---closed.log").toList,
        [("Task: T").toList, ("Start time: garbage").toList, ("End time: x").toList])
      = none := by decide

/-- Claim C6 as amended: for a closed record of the queried client whose
`Start time` value is present, non-empty and unparseable, *and whose
filename date field is a valid calendar date*, `report` uses that date at
midnight as the record's inclusion timestamp instead of dropping it, and
period membership depends only on that fallback timestamp — the `End
time` value (arbitrary here) is never consulted by the range check. -/
theorem claim_C6_start_fallback (c : List Char) (startDT endDT : PyDateTime)
    (name : List Char) (lines : List (List Char))
    (d : List Char) (s : Nat) (dd : PyDate) (ss es : List Char)
    (hdec : decodeFilename name = some (d, s, c, closedTok))
    (hss : metaGet lines keyStartTime = some ss) (hssne : ss ≠ [])
    (hes : metaGet lines keyEndTime = some es) (hesne : es ≠ [])
    (hnoparse : parseDateTime ss = none)
    (hd8 : parseDate8 d = some dd) :
    recordContribution c startDT endDT (name, lines) =
      if dtMicros startDT ≤ dtMicros (atMidnight dd)
          ∧ dtMicros (atMidnight dd) ≤ dtMicros endDT then
        some ((metaGet lines keyTask).getD ("Unknown").toList,
          duration_hours ss es)
      else none := by
  simp [recordContribution, hdec, hss, hes, hnoparse, hd8, hssne, hesne]

/-- Witness for C6: a closed February record with `Start time: soon`
(unparseable) is included through the fallback date 2024-02-15 in a
February 2024 query; its duration is 0 because the start never parses. -/
theorem claim_C6_witness :
    recordContribution ("Acme").toList (atMidnight ⟨2024, 2, 1⟩)
      (atDayEnd ⟨2024, 2, 29⟩)
      (("20240215-1---Acme---closed.log").toList,
        [("Task: Design").toList, ("Start time: soon").toList,
          ("End time: 2024-02-15 10:00:00").toList])
      = some (("Design").toList, 0) := by
  have h := claim_C6_start_fallback ("Acme").toList (atMidnight ⟨2024, 2, 1⟩)
    (atDayEnd ⟨2024, 2, 29⟩) (("20240215-1---Acme---closed.log").toList)
    [("Task: Design").toList, ("Start time: soon").toList,
      ("End time: 2024-02-15 10:00:00").toList]
    (("20240215").toList) 1 ⟨2024, 2, 15⟩ (("soon").toList)
    (("2024-02-15 10:00:00").toList)
    (by decide) (by decide) (by decide) (by decide) (by decide) (by decide) (by decide)
  rw [h, if_pos (by decide)]
  decide

/-! ### Listings: `find_open_logs` and `list_clients` -/

theorem decode_structured_none (date : List Char) (seq : Nat) (t : List Char)
    (hdlen : date.length = 8) (hdall : date.all Char.isDigit)
    (hsplit : splitClientStatus t = none) :
    decodeFilename (date ++ '-' :: (natDigits seq ++ ('-' :: '-' :: '-' :: t))) =
      none := by
  have h1 : (date ++ '-' :: (natDigits seq ++ ('-' :: '-' :: '-' :: t))).take 8 = date := by
    rw [← hdlen]
    exact List.take_left _ _
  have h2 : (date ++ '-' :: (natDigits seq ++ ('-' :: '-' :: '-' :: t))).drop 8 =
      '-' :: (natDigits seq ++ ('-' :: '-' :: '-' :: t)) := by
    rw [← hdlen]
    exact List.drop_left _ _
  have h9 : (date ++ '-' :: (natDigits seq ++ ('-' :: '-' :: '-' :: t))).drop 9 =
      natDigits seq ++ ('-' :: '-' :: '-' :: t) := by
    rw [show (9 : Nat) = 8 + 1 by norm_num, ← List.drop_drop, h2, List.drop_one,
      List.tail_cons]
  have h3 : (natDigits seq ++ ('-' :: '-' :: '-' :: t)).takeWhile Char.isDigit =
      natDigits seq := by
    rw [List.takeWhile_append_of_pos (natDigits_all_digit seq),
      List.takeWhile_cons_of_neg (by decide), List.append_nil]
  have h4 : (natDigits seq ++ ('-' :: '-' :: '-' :: t)).dropWhile Char.isDigit =
      '-' :: '-' :: '-' :: t := by
    rw [List.dropWhile_append_of_pos (natDigits_all_digit seq),
      List.dropWhile_cons_of_neg (by decide)]
  rw [decodeFilename, h1, h2, h9, h3, h4]
  rw [if_pos ⟨hdlen, hdall, rfl, natDigits_ne_nil seq, rfl⟩]
  have h5 : ('-' :: '-' :: '-' :: t).drop 3 = t := rfl
  rw [h5, hsplit]
  rfl

/-- Lexicographic comparison of two names by code point, the order
`sorted` uses on path strings inside one directory. -/
def lexLe : List Char → List Char → Bool
  | [], _ => true
  | _ :: _, [] => false
  | a :: as, b :: bs =>
    if a.toNat < b.toNat then true
    else if b.toNat < a.toNat then false
    else lexLe as bs

/-- Insertion step of an insertion sort. -/
def insertSorted (le : List Char → List Char → Bool) (x : List Char) :
    List (List Char) → List (List Char)
  | [] => [x]
  | y :: ys => if le x y then x :: y :: ys else y :: insertSorted le x ys

/-- Insertion sort of a list of names (embeds Python `sorted`; order
details are irrelevant to the claims, which only use membership and
whole-result equality). -/
def sortNames (le : List Char → List Char → Bool) (l : List (List Char)) :
    List (List Char) :=
  l.foldr (insertSorted le) []

/-- Filter of `find_open_logs` (cli.py lines 193-194): the glob
`*---open.log` conjoined with the `FILENAME_PATTERN` match is equivalent
to decoding with status `open` (a decoded status `open` forces the
`---open.log` tail and conversely the pattern never assigns status `open`
to a `---closed.log` tail). -/
def openLogFilter (n : List Char) : Bool :=
  match decodeFilename n with
  | some r => r.2.2.2 = openTok
  | none => false

/-- Embeds `find_open_logs` (cli.py lines 193-194). -/
def find_open_logs (files : List (List Char)) : List (List Char) :=
  sortNames lexLe (files.filter openLogFilter)

/-- Comparison by lowercased name, embedding `sorted(..., key=str.lower)`
(ties between distinct names with equal lowering are ordered by Python's
unspecified set-iteration order; the model fixes one order). -/
def lowerLe (a b : List Char) : Bool :=
  lexLe (a.map Char.toLower) (b.map Char.toLower)

/-- Embeds `list_clients` (cli.py lines 223-229): the set of decoded
client fields, sorted case-insensitively. -/
def list_clients (files : List (List Char)) : List (List Char) :=
  sortNames lowerLe
    ((files.filterMap (fun n => (decodeFilename n).map (fun r => r.2.2.1))).dedup)

theorem mem_insertSorted (le : List Char → List Char → Bool) (x z : List Char)
    (l : List (List Char)) : z ∈ insertSorted le x l ↔ z = x ∨ z ∈ l := by
  induction l with
  | nil => simp [insertSorted]
  | cons y ys ih =>
    rw [insertSorted]
    by_cases h : le x y
    · rw [if_pos h]
      simp
    · rw [if_neg h]
      rw [List.mem_cons, ih, List.mem_cons]
      tauto

theorem mem_sortNames (le : List Char → List Char → Bool) (l : List (List Char))
    (z : List Char) : z ∈ sortNames le l ↔ z ∈ l := by
  induction l with
  | nil => simp [sortNames]
  | cons y ys ih =>
    have hstep : sortNames le (y :: ys) = insertSorted le y (sortNames le ys) := rfl
    rw [hstep, mem_insertSorted, ih, List.mem_cons]

/-- Shared core of claims C8 and C10: a name that does not decode is
invisible to every listing and aggregate and never affects sequence
allocation. -/
theorem foreign_invisible (n : List Char) (hn : decodeFilename n = none) :
    (∀ files, n ∉ find_open_logs files)
    ∧ (∀ files, find_open_logs (n :: files) = find_open_logs files)
    ∧ (∀ files, list_clients (n :: files) = list_clients files)
    ∧ (∀ files d, next_sequence_for_today (n :: files) d =
        next_sequence_for_today files d)
    ∧ (∀ entries lines c sdt edt,
        reportAgg c sdt edt ((n, lines) :: entries) = reportAgg c sdt edt entries) := by
  have hfilt : openLogFilter n = false := by
    rw [openLogFilter, hn]
  refine ⟨?_, ?_, ?_, ?_, ?_⟩
  · intro files hmem
    rw [find_open_logs, mem_sortNames] at hmem
    have := List.of_mem_filter hmem
    rw [hfilt] at this
    cases this
  · intro files
    rw [find_open_logs, find_open_logs,
      List.filter_cons_of_neg (by rw [hfilt]; exact Bool.false_ne_true)]
  · intro files
    rw [list_clients, list_clients, List.filterMap_cons]
    rw [hn]
    rfl
  · intro files d
    rw [next_sequence_for_today, next_sequence_for_today, List.foldl_cons, hn]
  · intro entries lines c sdt edt
    rw [reportAgg, reportAgg, List.foldl_cons]
    have hcontrib : recordContribution c sdt edt (n, lines) = none := by
      rw [recordContribution]
      rw [show ((n, lines) : FileEntry).1 = n from rfl, hn]
    rw [hcontrib]

/-- Claim C8 (foreign-file tolerance): a file whose name does not match
the strict pattern appears in no listing (`find_open_logs`,
`list_clients`), contributes nothing to report aggregation, and does not
affect `next_sequence_for_today`. -/
theorem claim_C8_foreign_tolerance (n : List Char) (hn : decodeFilename n = none) :
    (∀ files, n ∉ find_open_logs files)
    ∧ (∀ files, find_open_logs (n :: files) = find_open_logs files)
    ∧ (∀ files, list_clients (n :: files) = list_clients files)
    ∧ (∀ files d, next_sequence_for_today (n :: files) d =
        next_sequence_for_today files d)
    ∧ (∀ entries lines c sdt edt,
        reportAgg c sdt edt ((n, lines) :: entries) = reportAgg c sdt edt entries) :=
  foreign_invisible n hn

/-- Witness for C8 with the two foreign names from the specification,
`notes.txt` and `20240101-x---Bad---weird.log` (non-digit sequence). -/
theorem claim_C8_witness :
    ("notes.txt").toList ∉ find_open_logs
      [("notes.txt").toList, ("20240101-1---A---open.log").toList]
    ∧ next_sequence_for_today
        (("20240101-x---Bad---weird.log").toList ::
          [("20240101-1---A---open.log").toList]) ("20240101").toList =
      next_sequence_for_today [("20240101-1---A---open.log").toList]
        ("20240101").toList :=
  ⟨(claim_C8_foreign_tolerance ("notes.txt").toList (by decide)).1 _,
    (claim_C8_foreign_tolerance ("20240101-x---Bad---weird.log").toList
      (by decide)).2.2.2.1 _ _⟩

/-- Claim C10 (implicit — empty sanitized client is invisible): when a
client name sanitizes to the empty string, the filename `create` writes
(`{date}-{seq}------open.log`) has an empty client field between the
separators, so it never matches `FILENAME_PATTERN`: the written record
appears in no listing or report and is ignored by sequence allocation
(each such create still writes a file, namely that very name). -/
theorem claim_C10_empty_client_invisible (client d : List Char) (seq : Nat)
    (hc : sanitizeClient client = [])
    (hdlen : d.length = 8) (hdall : d.all Char.isDigit) :
    decodeFilename (build_filename d seq client openTok) = none
    ∧ (∀ files, build_filename d seq client openTok ∉ find_open_logs files)
    ∧ (∀ files, find_open_logs (build_filename d seq client openTok :: files) =
        find_open_logs files)
    ∧ (∀ files, list_clients (build_filename d seq client openTok :: files) =
        list_clients files)
    ∧ (∀ files d2, next_sequence_for_today
        (build_filename d seq client openTok :: files) d2 =
        next_sequence_for_today files d2)
    ∧ (∀ entries lines c sdt edt,
        reportAgg c sdt edt ((build_filename d seq client openTok, lines) :: entries)
          = reportAgg c sdt edt entries) := by
  have hshape : build_filename d seq client openTok =
      d ++ '-' :: (natDigits seq ++ ('-' :: '-' :: '-' :: openSuffix)) := by
    simp [build_filename, hc, openSuffix, openTok]
  have hdec : decodeFilename (build_filename d seq client openTok) = none := by
    rw [hshape]
    exact decode_structured_none d seq openSuffix hdlen hdall (by decide)
  have hrest := foreign_invisible _ hdec
  exact ⟨hdec, hrest.1, hrest.2.1, hrest.2.2.1, hrest.2.2.2.1, hrest.2.2.2.2⟩

/-- Witness for C10: client `" . "` sanitizes to the empty string; the
written file `20240501-2------open.log` decodes as invalid and adding it
changes no listing. -/
theorem claim_C10_witness :
    decodeFilename (build_filename ("20240501").toList 2 (" . ").toList openTok) = none
    ∧ find_open_logs [build_filename ("20240501").toList 2 (" . ").toList openTok] =
        find_open_logs []
    ∧ next_sequence_for_today
        [build_filename ("20240501").toList 2 (" . ").toList openTok]
        ("20240501").toList = next_sequence_for_today [] ("20240501").toList := by
  have h := claim_C10_empty_client_invisible (" . ").toList ("20240501").toList 2
    (by decide) (by decide) (by decide)
  exact ⟨h.1, h.2.2.1 [], h.2.2.2.2.1 [] ("20240501").toList⟩

/-! ### Closing a record (`end`, cli.py lines 419-430) -/

/-- The body line appended by `end`: `End time: {now}`. -/
def endTimeLine (now : List Char) : List Char := ("End time: ").toList ++ now

/-- Content of a named file in the directory, `none` when absent. -/
def getContent (files : List FileEntry) (name : List Char) :
    Option (List (List Char)) :=
  match files with
  | [] => none
  | e :: rest => if e.1 = name then some e.2 else getContent rest name

/-- Removes the entry of a given name (the source of a `rename`). -/
def removeName (files : List FileEntry) (name : List Char) : List FileEntry :=
  files.filter (fun e => ¬ e.1 = name)

/-- The error `end` can raise after the append: `typer.Exit(1)` on a
filename that does not match `FILENAME_PATTERN` (cli.py lines 423-426).
Note there is no `NotFound` arm anywhere in this flow. -/
inductive CloseErr where
  | formatError : CloseErr
deriving DecidableEq

/-- The rename step of `end` (cli.py lines 423-430): decode the chosen
name (failure exits with the directory already holding the appended
content), build the equivalent `closed` name and rename onto it (POSIX
rename silently replaces an existing target). -/
def closeRename (files1 : List FileEntry) (chosen : List Char)
    (content : List (List Char)) :
    Except (CloseErr × List FileEntry) (List FileEntry) :=
  match decodeFilename chosen with
  | none => Except.error (CloseErr.formatError, files1)
  | some r =>
    Except.ok
      (removeName (removeName files1 chosen)
          (build_filename r.1 r.2.1 r.2.2.1 closedTok)
        ++ [(build_filename r.1 r.2.1 r.2.2.1 closedTok, content)])

/-- Embeds the close step of `end` (cli.py lines 419-430) on a chosen
path: `chosen.open("a")` appends the `End time` line — and, like Python
append mode, *creates* the file when it no longer exists — then the file
is renamed to its `closed` name. -/
def closeOp (files : List FileEntry) (chosen now : List Char) :
    Except (CloseErr × List FileEntry) (List FileEntry) :=
  match getContent files chosen with
  | some lines =>
    closeRename
      (files.map (fun e =>
        if e.1 = chosen then (e.1, lines ++ [endTimeLine now]) else e))
      chosen (lines ++ [endTimeLine now])
  | none =>
    closeRename (files ++ [(chosen, [endTimeLine now])]) chosen [endTimeLine now]

theorem mem_removeName (files : List FileEntry) (name : List Char) (e : FileEntry)
    (h : e ∈ removeName files name) : ¬ e.1 = name := by
  rw [removeName] at h
  have := List.of_mem_filter h
  simpa using this

theorem getContent_append_last (A : List FileEntry) (nm : List Char)
    (content : List (List Char)) (h : ∀ e ∈ A, ¬ e.1 = nm) :
    getContent (A ++ [(nm, content)]) nm = some content := by
  induction A with
  | nil =>
    rw [List.nil_append, getContent]
    rw [if_pos rfl]
  | cons e es ih =>
    rw [List.cons_append, getContent]
    rw [if_neg (h e (List.mem_cons_self e es))]
    exact ih (fun x hx => h x (List.mem_cons_of_mem _ hx))

/-- Claim C5 counterexample: closing a record whose open file is gone
(empty directory) does *not* fail with `NotFound` — append mode recreates
the file, the rename succeeds, and a closed file for that identity is
produced whose body is just the `End time` line. -/
theorem claim_C5_counterexample :
    closeOp [] ("20240101-1---Acme---open.log").toList
        ("2024-01-01 10:00:00").toList
      = Except.ok [(("20240101-1---Acme---closed.log").toList,
          [("End time: 2024-01-01 10:00:00").toList])]
    ∧ ∀ err, closeOp [] ("20240101-1---Acme---open.log").toList
        ("2024-01-01 10:00:00").toList ≠ Except.error err := by
  constructor
  · decide
  · intro err h
    rw [show closeOp [] ("20240101-1---Acme---open.log").toList
        ("2024-01-01 10:00:00").toList
      = Except.ok [(("20240101-1---Acme---closed.log").toList,
          [("End time: 2024-01-01 10:00:00").toList])] from by decide] at h
    exact Except.noConfusion h

/-- Claim C5 as amended: when the open-status file of a well-formed
record is gone at the time `close` runs, the operation does not fail at
all: Python's append-mode open recreates the file with only the `End
time` line, the rename succeeds, and a closed file for that identity
exists afterwards.  (The spec's promised `NotFound` failure does not
exist in this flow.) -/
theorem claim_C5_close_vanished (files : List FileEntry)
    (chosen now d : List Char) (s : Nat) (c : List Char)
    (hdec : decodeFilename chosen = some (d, s, c, openTok))
    (hmiss : getContent files chosen = none) :
    ∃ fs', closeOp files chosen now = Except.ok fs'
      ∧ getContent fs' (build_filename d s c closedTok) =
          some [endTimeLine now] := by
  rw [closeOp, hmiss, closeRename, hdec]
  refine ⟨_, rfl, ?_⟩
  apply getContent_append_last
  intro e he
  exact mem_removeName _ _ e he

/-- Witness for C5 (amended): closing the vanished record
`20240301-2---B---open.log` in a directory holding only a foreign file
succeeds and creates the closed record. -/
theorem claim_C5_witness :
    ∃ fs', closeOp [(("notes.txt").toList, [])]
        ("20240301-2---B---open.log").toList ("2024-03-01 09:00:00").toList
      = Except.ok fs'
      ∧ getContent fs' (("20240301-2---B---closed.log").toList) =
          some [endTimeLine ("2024-03-01 09:00:00").toList] := by
  have h := claim_C5_close_vanished [(("notes.txt").toList, [])]
    ("20240301-2---B---open.log").toList ("2024-03-01 09:00:00").toList
    ("20240301").toList 2 ("B").toList (by decide) (by decide)
  obtain ⟨fs', h1, h2⟩ := h
  refine ⟨fs', h1, ?_⟩
  rw [show ("20240301-2---B---closed.log").toList =
    build_filename ("20240301").toList 2 ("B").toList closedTok from by decide]
  exact h2
